import Mathlib

/-!
Shallow embedding of `src/explore_firestore.py` (kasbah-api), a diagnostic
script that connects to Firestore, probes a few named collections, prints a
shallow truncated rendering of the documents it finds, and writes the list of
all collection names to `firestore_collections.json`.

Python dynamic values are embedded as the inductive `Value`; documents as
`Doc`; the external database service as an oracle `FirestoreDB` whose calls
may fail (`Except`); process-wide state (the lazily initialised firebase app,
the output file, the trace of service calls) as `RunState`.  Exceptions of the
Python code are Except values; every `try/except` of the source is an explicit
`match` on them.
-/

/-- A dynamically typed Python value as produced by `doc.to_dict()`:
string, number, boolean, list, mapping (dict, insertion ordered) or None. -/
inductive Value where
  | vStr (s : String)
  | vInt (n : Int)
  | vBool (b : Bool)
  | vList (l : List Value)
  | vMap (m : List (String × Value))
  | vNull
deriving Repr

/-- A Firestore document: an id plus its `to_dict()` field mapping. -/
structure Doc where
  id : String
  data : List (String × Value)
deriving Repr

/-- Python `repr` of a string (the quoting used for strings inside lists and
dicts when they are formatted): prefer single quotes, use double quotes when
the string contains a single quote but no double quote; escape the backslash,
the chosen quote, and newline / carriage return / tab.  (Escapes of other
non-printable characters are not modelled.) -/
def pyReprStr (s : String) : String :=
  let sq : Char := Char.ofNat 39
  let dq : Char := Char.ofNat 34
  let bs : Char := Char.ofNat 92
  let q : Char := if s.data.contains sq && !(s.data.contains dq) then dq else sq
  let esc : Char → String := fun c =>
    if c = bs then String.mk [bs, bs]
    else if c = q then String.mk [bs, q]
    else if c = Char.ofNat 10 then String.mk [bs, Char.ofNat 110]
    else if c = Char.ofNat 13 then String.mk [bs, Char.ofNat 114]
    else if c = Char.ofNat 9 then String.mk [bs, Char.ofNat 116]
    else c.toString
  q.toString ++ String.join (s.data.map esc) ++ q.toString

mutual

/-- Python `repr` of a `Value` (used when a value appears inside a formatted
list or dict). -/
def pyRepr : Value → String
  | Value.vStr s => pyReprStr s
  | Value.vInt n => toString n
  | Value.vBool b => if b then "True" else "False"
  | Value.vNull => "None"
  | Value.vList l => "[" ++ pyReprElems l ++ "]"
  | Value.vMap m => "\x7b" ++ pyReprEntries m ++ "\x7d"

/-- Comma separated `repr`s of list elements. -/
def pyReprElems : List Value → String
  | [] => ""
  | [v] => pyRepr v
  | v :: w :: rest => pyRepr v ++ ", " ++ pyReprElems (w :: rest)

/-- Comma separated `repr`s of dict entries. -/
def pyReprEntries : List (String × Value) → String
  | [] => ""
  | [(k, v)] => pyReprStr k ++ ": " ++ pyRepr v
  | (k, v) :: e :: rest => pyReprStr k ++ ": " ++ pyRepr v ++ ", " ++ pyReprEntries (e :: rest)

end

/-- Python `str` of a `Value`, as interpolated by an f-string: a string is
taken verbatim, everything else falls back to `repr` formatting. -/
def pyStr : Value → String
  | Value.vStr s => s
  | v => pyRepr v

/-- Python `type(value).__name__` for the embedded values. -/
def pyTypeName : Value → String
  | Value.vStr _ => "str"
  | Value.vInt _ => "int"
  | Value.vBool _ => "bool"
  | Value.vList _ => "list"
  | Value.vMap _ => "dict"
  | Value.vNull => "NoneType"

/-- The display value computed by `explore_collection_structure`
(src/explore_firestore.py lines 54-64): a string longer than 100 characters is
truncated to its first 50 characters plus a length annotation, a list longer
than 3 items is abbreviated to its first 2 items plus an item count, a dict
with more than 5 keys is abbreviated to its first 3 keys plus a key count;
every other value is displayed in full. -/
inductive Display where
  | full (v : Value)
  | strTrunc (kept : String) (total : Nat)
  | listAbbrev (items : List Value) (total : Nat)
  | mapAbbrev (keys : List String) (total : Nat)
deriving Repr

/-- `display_value` of src lines 56-64 (the if/elif/else chain). -/
def display_value (value : Value) : Display :=
  match value with
  | Value.vStr s =>
    if s.length > 100 then Display.strTrunc (s.take 50) s.length else Display.full value
  | Value.vList l =>
    if l.length > 3 then Display.listAbbrev (l.take 2) l.length else Display.full value
  | Value.vMap m =>
    if m.length > 5 then
      Display.mapAbbrev ((m.map Prod.fst).take 3) m.length
    else Display.full value
  | v => Display.full v

/-- The string each display variant interpolates into the printed line,
mirroring the f-strings of src lines 57, 59 and 62. -/
def Display.render : Display → String
  | Display.full v => pyStr v
  | Display.strTrunc kept total => kept ++ "...(" ++ toString total ++ " chars)"
  | Display.listAbbrev items total =>
    "[" ++ toString total ++ " items: " ++ pyRepr (Value.vList items) ++ "...]"
  | Display.mapAbbrev keys total =>
    "\x7b" ++ toString total ++ " keys: " ++ pyRepr (Value.vList (keys.map Value.vStr)) ++ "...\x7d"

/-- The full line printed per field by `explore_collection_structure`
(src line 66): `  {key}: ({value_type}) {display_value}`. -/
def exploreLine (key : String) (value : Value) : String :=
  "  " ++ key ++ ": (" ++ pyTypeName value ++ ") " ++ (display_value value).render

/-- Python `field in data` / `data[field]` on a `to_dict()` mapping. -/
def lookupField (data : List (String × Value)) (field : String) : Option Value :=
  (data.find? (fun kv => kv.1 = field)).map Prod.snd

/-- The fixed field whitelist of `explore_products_structure` (src line 174). -/
def product_fields : List String :=
  ["name", "sku", "price", "category", "supplierId", "uom", "description"]

/-- The per-field value displayed by `explore_products_structure`
(src lines 177-179): a string longer than 100 characters becomes its first 50
characters followed by `...`; every other value is untouched. -/
def productFieldValue (value : Value) : Value :=
  match value with
  | Value.vStr s => if s.length > 100 then Value.vStr (s.take 50 ++ "...") else value
  | v => v

/-- The lines printed for one product document by `explore_products_structure`
(src lines 175-180): one line per whitelisted field present in the data, in
whitelist order. -/
def productLines (data : List (String × Value)) : List String :=
  product_fields.filterMap fun field =>
    (lookupField data field).map fun value =>
      "  " ++ field ++ ": " ++ pyStr (productFieldValue value)

/-- One call made to the external world: a document fetch
(`db.collection(name).limit(lim).get()`), the collection enumeration
(`db.collections()`), or a read of the credential file
(`credentials.Certificate(cred_path)`). -/
inductive Call where
  | getDocs (name : String) (lim : Nat)
  | listCollections
  | credRead
deriving Repr, DecidableEq

/-- The behaviour of the external Firestore service: each fetch and the
collection enumeration either returns a value or raises (Except.error). -/
structure FirestoreDB where
  getDocs : String → Nat → Except String (List Doc)
  collectionIds : Except String (List String)

/-- The fixed external environment of one process: whether the credential
file exists, whether authentication raises, and the service behaviour. -/
structure Env where
  credExists : Bool
  authError : Option String
  db : FirestoreDB

/-- Mutable process-wide state threaded through the run: whether
`firebase_admin.get_app()` succeeds (an app was initialised), the content of
`firestore_collections.json`, and the trace of external calls made so far. -/
structure RunState where
  appExists : Bool
  fileContent : Option String
  calls : List Call
deriving Repr, DecidableEq

/-- `init_firestore` (src lines 18-28): if an app already exists, return a
client for it; otherwise, if the credential file is missing, report and
return None; otherwise read the credential file and initialise the app (which
may raise).  The result is `Except` because the Certificate/initialize_app
path is not wrapped in any try of its own. -/
def init_firestore (env : Env) (s : RunState) :
    Except String (Option FirestoreDB) × RunState :=
  if s.appExists then
    (Except.ok (some env.db), s)
  else if !env.credExists then
    (Except.ok none, s)
  else
    match env.authError with
    | some e => (Except.error e, { s with calls := s.calls ++ [Call.credRead] })
    | none =>
      (Except.ok (some env.db),
        { s with appExists := true, calls := s.calls ++ [Call.credRead] })

/-- A document fetch `db.collection(name).limit(lim).get()`: records the call
in the trace and returns whatever the service does. -/
def callGetDocs (env : Env) (s : RunState) (name : String) (lim : Nat) :
    Except String (List Doc) × RunState :=
  (env.db.getDocs name lim,
    { s with calls := s.calls ++ [Call.getDocs name lim] })

/-- `explore_collection_structure` (src lines 30-79): initialise, fetch up to
`lim` documents, return the non-empty ones as samples; any raise (from init or
the fetch) is caught and yields `[]`. -/
def explore_collection_structure (env : Env) (name : String) (lim : Nat)
    (s : RunState) : List Doc × RunState :=
  match init_firestore env s with
  | (Except.error _, s1) => ([], s1)
  | (Except.ok none, s1) => ([], s1)
  | (Except.ok (some _), s1) =>
    match callGetDocs env s1 name lim with
    | (Except.error _, s2) => ([], s2)
    | (Except.ok docs, s2) => (docs.filter (fun d => !d.data.isEmpty), s2)

/-- The fixed candidate list of `find_orders_by_criteria` (src line 92). -/
def collections_to_try : List String :=
  ["orders", "Orders", "order", "purchase_orders", "transactions"]

/-- The possible return values of `find_orders_by_criteria`: the name of the
collection found (a Python str), None (not found / outer error), or the empty
list the function returns when no database handle is available. -/
inductive FindOrdersResult where
  | found (name : String)
  | notFound
  | noDb
deriving Repr, DecidableEq

/-- The candidate loop of `find_orders_by_criteria` (src lines 94-119): fetch
up to 3 documents per candidate; a raise is caught and the loop continues; a
non-empty result returns the candidate name at once; an empty result falls
through to the next candidate. -/
def find_orders_loop (env : Env) (s : RunState) :
    List String → Option String × RunState
  | [] => (none, s)
  | c :: rest =>
    match callGetDocs env s c 3 with
    | (Except.error _, s1) => find_orders_loop env s1 rest
    | (Except.ok docs, s1) =>
      if docs.isEmpty then find_orders_loop env s1 rest else (some c, s1)

/-- `find_orders_by_criteria` (src lines 81-126): initialise (returning the
empty list if no handle), then run the candidate loop; None when the loop is
exhausted or the outer try catches a raise from init. -/
def find_orders_by_criteria (env : Env) (s : RunState) :
    FindOrdersResult × RunState :=
  match init_firestore env s with
  | (Except.error _, s1) => (FindOrdersResult.notFound, s1)
  | (Except.ok none, s1) => (FindOrdersResult.noDb, s1)
  | (Except.ok (some _), s1) =>
    match find_orders_loop env s1 collections_to_try with
    | (some name, s2) => (FindOrdersResult.found name, s2)
    | (none, s2) => (FindOrdersResult.notFound, s2)

/-- `explore_users_structure` (src lines 128-152): initialise, fetch up to 3
users, print them; any raise is caught.  Only the state matters here. -/
def explore_users_structure (env : Env) (s : RunState) : RunState :=
  match init_firestore env s with
  | (Except.error _, s1) => s1
  | (Except.ok none, s1) => s1
  | (Except.ok (some _), s1) =>
    match callGetDocs env s1 "users" 3 with
    | (_, s2) => s2

/-- `explore_products_structure` (src lines 154-183): initialise, fetch up to
5 products, print per document the whitelisted field lines; any raise is
caught and nothing is printed.  Returns the per-document printed lines. -/
def explore_products_structure (env : Env) (s : RunState) :
    List (List String) × RunState :=
  match init_firestore env s with
  | (Except.error _, s1) => ([], s1)
  | (Except.ok none, s1) => ([], s1)
  | (Except.ok (some _), s1) =>
    match callGetDocs env s1 "products" 5 with
    | (Except.error _, s2) => ([], s2)
    | (Except.ok docs, s2) => (docs.map (fun d => productLines d.data), s2)

/-- `json.dump(collection_names, f, indent=2)`: a JSON array of strings with
2-space indentation. -/
def hexDigit (n : Nat) : Char :=
  if n < 10 then Char.ofNat (48 + n) else Char.ofNat (87 + n)

/-- Four lowercase hex digits, as in a JSON `\uXXXX` escape. -/
def hex4 (n : Nat) : String :=
  String.mk [hexDigit (n / 4096 % 16), hexDigit (n / 256 % 16),
    hexDigit (n / 16 % 16), hexDigit (n % 16)]

/-- JSON escaping of one character as `json.dump` does with the default
`ensure_ascii=True`: printable ASCII passes through, the quote and backslash
and common controls get short escapes, everything else becomes u-escapes
(a surrogate pair above the BMP). -/
def jsonEscapeChar (c : Char) : String :=
  let bs : Char := Char.ofNat 92
  if c = Char.ofNat 34 then String.mk [bs, Char.ofNat 34]
  else if c = bs then String.mk [bs, bs]
  else if c = Char.ofNat 10 then String.mk [bs, Char.ofNat 110]
  else if c = Char.ofNat 13 then String.mk [bs, Char.ofNat 114]
  else if c = Char.ofNat 9 then String.mk [bs, Char.ofNat 116]
  else if c = Char.ofNat 8 then String.mk [bs, Char.ofNat 98]
  else if c = Char.ofNat 12 then String.mk [bs, Char.ofNat 102]
  else if c.toNat < 32 || c.toNat > 126 then
    if c.toNat < 65536 then bs.toString ++ "u" ++ hex4 c.toNat
    else
      let n := c.toNat - 65536
      bs.toString ++ "u" ++ hex4 (55296 + n / 1024) ++
        bs.toString ++ "u" ++ hex4 (56320 + n % 1024)
  else c.toString

/-- A JSON string literal. -/
def jsonStringLit (s : String) : String :=
  let dq := (Char.ofNat 34).toString
  dq ++ String.join (s.data.map jsonEscapeChar) ++ dq

/-- The exact text `json.dump(names, f, indent=2)` writes for a list of
strings: `[]` when empty, otherwise one element per line indented by two
spaces. -/
def jsonDump (names : List String) : String :=
  match names with
  | [] => "[]"
  | _ => "[\n  " ++ String.intercalate ",\n  " (names.map jsonStringLit) ++ "\n]"

/-- The collection-listing block of `main` (src lines 203-220): initialise,
enumerate all collection names and overwrite `firestore_collections.json`
with their JSON dump; the block catches its own raises, leaving the file
untouched on failure. -/
def list_all_collections (env : Env) (s : RunState) : RunState :=
  match init_firestore env s with
  | (Except.error _, s1) => s1
  | (Except.ok none, s1) => s1
  | (Except.ok (some _), s1) =>
    let s2 := { s1 with calls := s1.calls ++ [Call.listCollections] }
    match env.db.collectionIds with
    | Except.error _ => s2
    | Except.ok names => { s2 with fileContent := some (jsonDump names) }

/-- `main` (src lines 185-220): explore users, discover an orders collection
and (when one was found — every candidate name is a non-empty, hence truthy,
string) explore it with limit 3, explore products, then run the listing
block.  (Named `mainRun` because `main` is reserved in Lean for an entry
point.) -/
def mainRun (env : Env) (s : RunState) : RunState :=
  let s1 := explore_users_structure env s
  let r := find_orders_by_criteria env s1
  let s3 :=
    match r.1 with
    | FindOrdersResult.found name => (explore_collection_structure env name 3 r.2).2
    | _ => r.2
  let s4 := (explore_products_structure env s3).2
  list_all_collections env s4

/-- A candidate name is a hit when fetching 3 documents from it succeeds with
a non-empty result (the `if docs:` test of src line 97); a raising candidate
is never a hit. -/
def isHit (db : FirestoreDB) (name : String) : Bool :=
  match db.getDocs name 3 with
  | Except.ok docs => !docs.isEmpty
  | Except.error _ => false

/-- The candidates the discovery loop queries: every candidate up to and
including the first hit, or all of them when none hits. -/
def queriedCandidates (db : FirestoreDB) : List String → List String
  | [] => []
  | c :: rest => c :: (if isHit db c then [] else queriedCandidates db rest)

/-- A run can obtain a database handle: either the firebase app already
exists, or the credential file exists and authentication does not raise. -/
def canConnect (env : Env) (s : RunState) : Prop :=
  s.appExists = true ∨ (env.credExists = true ∧ env.authError = none)

lemma init_app_true (env : Env) (s : RunState) (h : s.appExists = true) :
    init_firestore env s = (Except.ok (some env.db), s) := by
  simp [init_firestore, h]

lemma find_orders_loop_spec (env : Env) :
    ∀ (cands : List String) (s : RunState),
      (find_orders_loop env s cands).1 = cands.find? (isHit env.db) ∧
      (find_orders_loop env s cands).2.calls =
        s.calls ++ (queriedCandidates env.db cands).map (fun c => Call.getDocs c 3) ∧
      (find_orders_loop env s cands).2.appExists = s.appExists ∧
      (find_orders_loop env s cands).2.fileContent = s.fileContent := by
  intro cands
  induction cands with
  | nil => intro s; simp [find_orders_loop, queriedCandidates]
  | cons c rest ih =>
    intro s
    cases hdocs : env.db.getDocs c 3 with
    | error e =>
      have hhit : isHit env.db c = false := by simp [isHit, hdocs]
      have hrec := ih { s with calls := s.calls ++ [Call.getDocs c 3] }
      simp [find_orders_loop, callGetDocs, hdocs, List.find?_cons, hhit,
        queriedCandidates, hrec.1, hrec.2.1, hrec.2.2.1, hrec.2.2.2]
    | ok docs =>
      cases hempty : docs.isEmpty with
      | true =>
        have hhit : isHit env.db c = false := by simp [isHit, hdocs, hempty]
        have hrec := ih { s with calls := s.calls ++ [Call.getDocs c 3] }
        simp [find_orders_loop, callGetDocs, hdocs, hempty, List.find?_cons, hhit,
          queriedCandidates, hrec.1, hrec.2.1, hrec.2.2.1, hrec.2.2.2]
      | false =>
        have hhit : isHit env.db c = true := by simp [isHit, hdocs, hempty]
        simp [find_orders_loop, callGetDocs, hdocs, hempty, List.find?_cons, hhit,
          queriedCandidates]

lemma queriedCandidates_all_miss (db : FirestoreDB) :
    ∀ l : List String, (∀ c ∈ l, isHit db c = false) → queriedCandidates db l = l := by
  intro l
  induction l with
  | nil => intro _; rfl
  | cons c rest ih =>
    intro h
    have hc := h c (List.mem_cons_self c rest)
    simp [queriedCandidates, hc, ih fun x hx => h x (List.mem_cons_of_mem c hx)]

lemma find?_skip_of_false (p : String → Bool) (c : String) (hp : p c = false) :
    ∀ l : List String, l.find? p = (l.filter (fun x => x ≠ c)).find? p := by
  intro l
  induction l with
  | nil => rfl
  | cons a rest ih =>
    by_cases hac : a = c
    · subst hac
      simp [List.find?_cons, hp, ih]
    · simp [List.find?_cons, hac, ih]

lemma init_connect (env : Env) (s : RunState) (h : canConnect env s) :
    ∃ s', init_firestore env s = (Except.ok (some env.db), s') ∧
      s'.appExists = true ∧ s'.fileContent = s.fileContent := by
  cases happ : s.appExists with
  | true => exact ⟨s, init_app_true env s happ, happ, rfl⟩
  | false =>
    rcases h with h | ⟨hcred, hauth⟩
    · rw [happ] at h; exact absurd h (by simp)
    · refine ⟨{ s with appExists := true, calls := s.calls ++ [Call.credRead] }, ?_, rfl, rfl⟩
      simp [init_firestore, happ, hcred, hauth]

lemma explore_users_state (env : Env) (s : RunState) (happ : s.appExists = true) :
    (explore_users_structure env s).appExists = true ∧
    (explore_users_structure env s).fileContent = s.fileContent := by
  simp [explore_users_structure, init_app_true env s happ, callGetDocs, happ]

lemma find_orders_state (env : Env) (s : RunState) (happ : s.appExists = true) :
    ((find_orders_by_criteria env s).2).appExists = true ∧
    ((find_orders_by_criteria env s).2).fileContent = s.fileContent := by
  obtain ⟨-, -, hA, hF⟩ := find_orders_loop_spec env collections_to_try s
  unfold find_orders_by_criteria
  rw [init_app_true env s happ]
  cases hloop : find_orders_loop env s collections_to_try with
  | mk r s2 =>
    rw [hloop] at hA hF
    cases r <;> simp_all

lemma explore_collection_state (env : Env) (name : String) (lim : Nat) (s : RunState)
    (happ : s.appExists = true) :
    ((explore_collection_structure env name lim s).2).appExists = true ∧
    ((explore_collection_structure env name lim s).2).fileContent = s.fileContent := by
  unfold explore_collection_structure
  rw [init_app_true env s happ]
  cases hdocs : env.db.getDocs name lim <;> simp [callGetDocs, hdocs, happ]

lemma explore_products_state (env : Env) (s : RunState) (happ : s.appExists = true) :
    ((explore_products_structure env s).2).appExists = true ∧
    ((explore_products_structure env s).2).fileContent = s.fileContent := by
  unfold explore_products_structure
  rw [init_app_true env s happ]
  cases hdocs : env.db.getDocs "products" 5 <;> simp [callGetDocs, hdocs, happ]

lemma canConnect_users (env : Env) (s : RunState) (h : canConnect env s) :
    canConnect env (explore_users_structure env s) := by
  rcases h with h | h
  · exact Or.inl (explore_users_state env s h).1
  · exact Or.inr h

lemma canConnect_orders (env : Env) (s : RunState) (h : canConnect env s) :
    canConnect env (find_orders_by_criteria env s).2 := by
  rcases h with h | h
  · exact Or.inl (find_orders_state env s h).1
  · exact Or.inr h

lemma canConnect_explore (env : Env) (name : String) (lim : Nat) (s : RunState)
    (h : canConnect env s) :
    canConnect env (explore_collection_structure env name lim s).2 := by
  rcases h with h | h
  · exact Or.inl (explore_collection_state env name lim s h).1
  · exact Or.inr h

lemma canConnect_products (env : Env) (s : RunState) (h : canConnect env s) :
    canConnect env (explore_products_structure env s).2 := by
  rcases h with h | h
  · exact Or.inl (explore_products_state env s h).1
  · exact Or.inr h

lemma list_all_collections_spec (env : Env) (s : RunState) (names : List String)
    (hconn : canConnect env s) (hcols : env.db.collectionIds = Except.ok names) :
    (list_all_collections env s).fileContent = some (jsonDump names) ∧
    Call.listCollections ∈ (list_all_collections env s).calls := by
  obtain ⟨s', hinit, -, -⟩ := init_connect env s hconn
  unfold list_all_collections
  rw [hinit, hcols]
  simp

lemma mainRun_writes (env : Env) (s : RunState) (names : List String)
    (hconn : canConnect env s) (hcols : env.db.collectionIds = Except.ok names) :
    (mainRun env s).fileContent = some (jsonDump names) ∧
    Call.listCollections ∈ (mainRun env s).calls := by
  have h1 : canConnect env (explore_users_structure env s) := canConnect_users env s hconn
  have h2 : canConnect env (find_orders_by_criteria env (explore_users_structure env s)).2 :=
    canConnect_orders env _ h1
  have h3 : canConnect env
      (match (find_orders_by_criteria env (explore_users_structure env s)).1 with
       | FindOrdersResult.found name =>
         (explore_collection_structure env name 3
           (find_orders_by_criteria env (explore_users_structure env s)).2).2
       | _ => (find_orders_by_criteria env (explore_users_structure env s)).2) := by
    cases (find_orders_by_criteria env (explore_users_structure env s)).1 with
    | found name => exact canConnect_explore env name 3 _ h2
    | notFound => exact h2
    | noDb => exact h2
  have h4 := canConnect_products env _ h3
  have hfin := list_all_collections_spec env _ names h4 hcols
  simpa [mainRun] using hfin

lemma find_orders_characterization (env : Env) (s : RunState)
    (happ : s.appExists = true) :
    (find_orders_by_criteria env s).1 =
      (match collections_to_try.find? (isHit env.db) with
       | some c => FindOrdersResult.found c
       | none => FindOrdersResult.notFound) ∧
    (find_orders_by_criteria env s).2.calls =
      s.calls ++ (queriedCandidates env.db collections_to_try).map
        (fun c => Call.getDocs c 3) := by
  obtain ⟨h1, h2, -, -⟩ := find_orders_loop_spec env collections_to_try s
  cases hloop : find_orders_loop env s collections_to_try with
  | mk r s2 =>
    rw [hloop] at h1 h2
    simp only at h1 h2
    cases r with
    | some name =>
      have hfo : find_orders_by_criteria env s = (FindOrdersResult.found name, s2) := by
        simp [find_orders_by_criteria, init_app_true env s happ, hloop]
      rw [hfo]
      exact ⟨by rw [← h1], h2⟩
    | none =>
      have hfo : find_orders_by_criteria env s = (FindOrdersResult.notFound, s2) := by
        simp [find_orders_by_criteria, init_app_true env s happ, hloop]
      rw [hfo]
      exact ⟨by rw [← h1], h2⟩

/-- C1: for every service behaviour, `find_orders_by_criteria` tries the
candidates "orders", "Orders", "order", "purchase_orders", "transactions" in
that fixed order, fetching with limit 3 each time, returns the first
candidate whose fetch yields at least one document, and queries exactly the
candidates up to and including that first hit; in particular, when "order"
(the third candidate) is the first hit, the result is "order" and neither
"purchase_orders" nor "transactions" is ever queried. -/
theorem orders_discovery_first_match (env : Env) (s : RunState)
    (happ : s.appExists = true) :
    ((find_orders_by_criteria env s).1 =
      match collections_to_try.find? (isHit env.db) with
      | some c => FindOrdersResult.found c
      | none => FindOrdersResult.notFound) ∧
    (find_orders_by_criteria env s).2.calls =
      s.calls ++ (queriedCandidates env.db collections_to_try).map
        (fun c => Call.getDocs c 3) ∧
    (isHit env.db "orders" = false → isHit env.db "Orders" = false →
      isHit env.db "order" = true →
      (find_orders_by_criteria env s).1 = FindOrdersResult.found "order" ∧
      (find_orders_by_criteria env s).2.calls =
        s.calls ++ [Call.getDocs "orders" 3, Call.getDocs "Orders" 3,
          Call.getDocs "order" 3]) := by
  obtain ⟨hR, hC⟩ := find_orders_characterization env s happ
  refine ⟨hR, hC, fun ho hO hor => ?_⟩
  have hfind : collections_to_try.find? (isHit env.db) = some "order" := by
    simp [collections_to_try, List.find?_cons, ho, hO, hor]
  have hq : queriedCandidates env.db collections_to_try =
      ["orders", "Orders", "order"] := by
    simp [collections_to_try, queriedCandidates, ho, hO, hor]
  constructor
  · rw [hR, hfind]
  · rw [hC, hq]
    simp

/-- A service where only the collection "order" has documents; everything
else is empty and the collection enumeration is empty. -/
def orderOnlyDB : FirestoreDB :=
  { getDocs := fun name _ =>
      if name = "order" then
        Except.ok [⟨"o1", [("status", Value.vStr "open")]⟩]
      else Except.ok []
    collectionIds := Except.ok [] }

/-- Witness for C1: with documents only under "order", discovery returns
"order" after querying exactly "orders", "Orders", "order" with limit 3. -/
theorem orders_discovery_first_match_witness :
    (find_orders_by_criteria ⟨true, none, orderOnlyDB⟩ ⟨true, none, []⟩).1 =
      FindOrdersResult.found "order" ∧
    (find_orders_by_criteria ⟨true, none, orderOnlyDB⟩ ⟨true, none, []⟩).2.calls =
      [Call.getDocs "orders" 3, Call.getDocs "Orders" 3, Call.getDocs "order" 3] := by
  have h :=
    (orders_discovery_first_match ⟨true, none, orderOnlyDB⟩ ⟨true, none, []⟩ rfl).2.2
      rfl rfl rfl
  exact ⟨h.1, by simpa using h.2⟩

/-- C4: when no candidate yields a document, `find_orders_by_criteria`
returns its "not found" signal (Python None), and all five candidates were
queried exactly once, in the listed order. -/
theorem orders_discovery_exhaustion (env : Env) (s : RunState)
    (happ : s.appExists = true)
    (hmiss : ∀ c ∈ collections_to_try, isHit env.db c = false) :
    (find_orders_by_criteria env s).1 = FindOrdersResult.notFound ∧
    (find_orders_by_criteria env s).2.calls =
      s.calls ++ collections_to_try.map (fun c => Call.getDocs c 3) := by
  obtain ⟨hR, hC⟩ := find_orders_characterization env s happ
  have hfind : collections_to_try.find? (isHit env.db) = none := by
    apply List.find?_eq_none.mpr
    intro x hx
    simp [hmiss x hx]
  refine ⟨by rw [hR, hfind], ?_⟩
  rw [hC, queriedCandidates_all_miss env.db collections_to_try hmiss]

/-- A service where every fetch succeeds with no documents. -/
def allEmptyDB : FirestoreDB :=
  { getDocs := fun _ _ => Except.ok []
    collectionIds := Except.ok [] }

/-- Witness for C4: with every candidate empty, discovery reports not found
and the trace is exactly the five candidates in order. -/
theorem orders_discovery_exhaustion_witness :
    (find_orders_by_criteria ⟨true, none, allEmptyDB⟩ ⟨true, none, []⟩).1 =
      FindOrdersResult.notFound ∧
    (find_orders_by_criteria ⟨true, none, allEmptyDB⟩ ⟨true, none, []⟩).2.calls =
      [Call.getDocs "orders" 3, Call.getDocs "Orders" 3, Call.getDocs "order" 3,
        Call.getDocs "purchase_orders" 3, Call.getDocs "transactions" 3] := by
  have h := orders_discovery_exhaustion ⟨true, none, allEmptyDB⟩ ⟨true, none, []⟩ rfl
    (by decide)
  exact ⟨h.1, by simpa using h.2⟩

/-- C10: a candidate whose fetch raises is silently skipped: it is never the
returned collection, and the discovery result is as if that candidate were
removed from the candidate list (discovery neither aborts nor accepts it). -/
theorem orders_discovery_skips_errors (env : Env) (s : RunState)
    (c : String) (e : String) (happ : s.appExists = true)
    (_hc : c ∈ collections_to_try)
    (herr : env.db.getDocs c 3 = Except.error e) :
    (find_orders_by_criteria env s).1 ≠ FindOrdersResult.found c ∧
    (find_orders_by_criteria env s).1 =
      (match (collections_to_try.filter (fun x => x ≠ c)).find? (isHit env.db) with
       | some d => FindOrdersResult.found d
       | none => FindOrdersResult.notFound) := by
  obtain ⟨hR, -⟩ := find_orders_characterization env s happ
  have hhit : isHit env.db c = false := by simp [isHit, herr]
  constructor
  · rw [hR]
    cases hfind : collections_to_try.find? (isHit env.db) with
    | none => simp
    | some d =>
      simp only
      intro hcontra
      have hdc : d = c := FindOrdersResult.found.inj hcontra
      have hd : isHit env.db d = true := List.find?_some hfind
      rw [hdc, hhit] at hd
      exact Bool.noConfusion hd
  · rw [hR, find?_skip_of_false (isHit env.db) c hhit collections_to_try]

/-- A service where fetching "orders" raises and only "Orders" has
documents. -/
def ordersRaisesDB : FirestoreDB :=
  { getDocs := fun name _ =>
      if name = "orders" then Except.error "permission denied"
      else if name = "Orders" then
        Except.ok [⟨"o2", [("total", Value.vInt 10)]⟩]
      else Except.ok []
    collectionIds := Except.ok [] }

/-- Witness for C10: when "orders" raises, discovery does not return
"orders" and settles on "Orders", the first non-erroring hit. -/
theorem orders_discovery_skips_errors_witness :
    (find_orders_by_criteria ⟨true, none, ordersRaisesDB⟩ ⟨true, none, []⟩).1 ≠
      FindOrdersResult.found "orders" ∧
    (find_orders_by_criteria ⟨true, none, ordersRaisesDB⟩ ⟨true, none, []⟩).1 =
      FindOrdersResult.found "Orders" := by
  have h := orders_discovery_skips_errors ⟨true, none, ordersRaisesDB⟩
    ⟨true, none, []⟩ "orders" "permission denied" rfl (by decide) rfl
  exact ⟨h.1, by rw [h.2]; rfl⟩

/-- C3: in the shallow rendering of `explore_collection_structure`, a string
field of 120 characters is displayed as its first 50 characters with the
full length 120 annotated; a list field of 5 items is displayed as exactly
its first 2 items with the count 5 annotated; a mapping field of 8 keys is
displayed as exactly its first 3 keys with the count 8 annotated.  The
`render` conjuncts give the exact interpolated text of each display. -/
theorem explore_truncation (s : String) (l : List Value)
    (m : List (String × Value))
    (hs : s.length = 120) (hl : l.length = 5) (hm : m.length = 8) :
    display_value (Value.vStr s) = Display.strTrunc (s.take 50) 120 ∧
    (display_value (Value.vStr s)).render = s.take 50 ++ "...(120 chars)" ∧
    display_value (Value.vList l) = Display.listAbbrev (l.take 2) 5 ∧
    (display_value (Value.vList l)).render =
      "[5 items: " ++ pyRepr (Value.vList (l.take 2)) ++ "...]" ∧
    display_value (Value.vMap m) = Display.mapAbbrev ((m.map Prod.fst).take 3) 8 ∧
    (display_value (Value.vMap m)).render =
      "\x7b8 keys: " ++ pyRepr (Value.vList (((m.map Prod.fst).take 3).map Value.vStr)) ++
        "...\x7d" := by
  have h1 : display_value (Value.vStr s) = Display.strTrunc (s.take 50) 120 := by
    simp [display_value, hs]
  have h2 : display_value (Value.vList l) = Display.listAbbrev (l.take 2) 5 := by
    simp [display_value, hl]
  have h3 : display_value (Value.vMap m) =
      Display.mapAbbrev ((m.map Prod.fst).take 3) 8 := by
    simp [display_value, hm]
  refine ⟨h1, ?_, h2, ?_, h3, ?_⟩
  · rw [h1]
    show s.take 50 ++ "...(" ++ toString (120 : Nat) ++ " chars)" =
      s.take 50 ++ "...(120 chars)"
    rw [String.append_assoc, String.append_assoc]
    rfl
  · rw [h2]
    rfl
  · rw [h3]
    rfl

/-- A 120-character string used to exercise the truncation branch. -/
def sample120 : String := String.mk (List.replicate 120 'a')

set_option maxRecDepth 8192 in
/-- Witness for C3: the truncation thresholds at a concrete 120-character
string, a concrete 5-item list and a concrete 8-key mapping. -/
theorem explore_truncation_witness :
    sample120.length = 120 ∧
    display_value (Value.vStr sample120) = Display.strTrunc (sample120.take 50) 120 ∧
    (display_value (Value.vList (List.replicate 5 (Value.vInt 1)))).render =
      "[5 items: [1, 1]...]" ∧
    (display_value (Value.vMap [("0", Value.vNull), ("1", Value.vNull),
      ("2", Value.vNull), ("3", Value.vNull), ("4", Value.vNull),
      ("5", Value.vNull), ("6", Value.vNull), ("7", Value.vNull)])).render =
      "\x7b8 keys: ['0', '1', '2']...\x7d" := by
  have h := explore_truncation sample120 (List.replicate 5 (Value.vInt 1))
    [("0", Value.vNull), ("1", Value.vNull), ("2", Value.vNull),
      ("3", Value.vNull), ("4", Value.vNull), ("5", Value.vNull),
      ("6", Value.vNull), ("7", Value.vNull)]
    (by decide) (by decide) (by decide)
  refine ⟨by decide, h.1, ?_, ?_⟩
  · rw [h.2.2.2.1]
    rfl
  · rw [h.2.2.2.2.2]
    rfl

/-- C8: the implicit thresholds of the shallow rendering: a string of at
most 100 characters, a list of at most 3 items and a mapping of at most 5
keys are each displayed in full, untruncated. -/
theorem explore_no_truncation (s : String) (l : List Value)
    (m : List (String × Value)) :
    (s.length ≤ 100 → display_value (Value.vStr s) = Display.full (Value.vStr s)) ∧
    (l.length ≤ 3 → display_value (Value.vList l) = Display.full (Value.vList l)) ∧
    (m.length ≤ 5 → display_value (Value.vMap m) = Display.full (Value.vMap m)) := by
  refine ⟨fun h => ?_, fun h => ?_, fun h => ?_⟩
  · have hn : ¬ s.length > 100 := by omega
    simp [display_value, hn]
  · have hn : ¬ l.length > 3 := by omega
    simp [display_value, hn]
  · have hn : ¬ m.length > 5 := by omega
    simp [display_value, hn]

/-- Witness for C8: a 100-character string, a 3-item list and a 5-key
mapping all render in full. -/
theorem explore_no_truncation_witness :
    (String.mk (List.replicate 100 'b')).length ≤ 100 ∧
    display_value (Value.vStr (String.mk (List.replicate 100 'b'))) =
      Display.full (Value.vStr (String.mk (List.replicate 100 'b'))) ∧
    display_value (Value.vList [Value.vInt 1, Value.vInt 2, Value.vInt 3]) =
      Display.full (Value.vList [Value.vInt 1, Value.vInt 2, Value.vInt 3]) ∧
    display_value (Value.vMap [("a", Value.vNull), ("b", Value.vNull),
        ("c", Value.vNull), ("d", Value.vNull), ("e", Value.vNull)]) =
      Display.full (Value.vMap [("a", Value.vNull), ("b", Value.vNull),
        ("c", Value.vNull), ("d", Value.vNull), ("e", Value.vNull)]) := by
  have h := explore_no_truncation (String.mk (List.replicate 100 'b'))
    [Value.vInt 1, Value.vInt 2, Value.vInt 3]
    [("a", Value.vNull), ("b", Value.vNull), ("c", Value.vNull),
      ("d", Value.vNull), ("e", Value.vNull)]
  exact ⟨by decide, h.1 (by decide), h.2.1 (by decide), h.2.2 (by decide)⟩

/-- C9: in the products exploration, a string field longer than 100
characters is displayed as its first 50 characters followed by "..." with no
length annotation, and every printed line comes from a field of the fixed
whitelist name/sku/price/category/supplierId/uom/description. -/
theorem products_rendering (data : List (String × Value)) (field : String)
    (s : String) :
    (s.length > 100 →
      pyStr (productFieldValue (Value.vStr s)) = s.take 50 ++ "...") ∧
    (field ∈ product_fields → lookupField data field = some (Value.vStr s) →
      s.length > 100 →
      ("  " ++ field ++ ": " ++ (s.take 50 ++ "...")) ∈ productLines data) ∧
    (∀ line ∈ productLines data, ∃ f ∈ product_fields, ∃ v,
      lookupField data f = some v ∧
      line = "  " ++ f ++ ": " ++ pyStr (productFieldValue v)) := by
  have htr : s.length > 100 →
      pyStr (productFieldValue (Value.vStr s)) = s.take 50 ++ "..." := by
    intro h
    simp [productFieldValue, pyStr, h]
  refine ⟨htr, fun hf hlook hlen => ?_, fun line hline => ?_⟩
  · have hm : ("  " ++ field ++ ": " ++ pyStr (productFieldValue (Value.vStr s))) ∈
        productLines data := by
      unfold productLines
      apply List.mem_filterMap.mpr
      exact ⟨field, hf, by rw [hlook]; rfl⟩
    rwa [htr hlen] at hm
  · obtain ⟨f, hfmem, hfeq⟩ := List.mem_filterMap.mp hline
    cases hlk : lookupField data f with
    | none => rw [hlk] at hfeq; exact absurd hfeq (by simp)
    | some v =>
      rw [hlk] at hfeq
      simp only [Option.map_some', Option.some.injEq] at hfeq
      exact ⟨f, hfmem, v, hlk, hfeq.symm⟩

/-- A 120-character string of x characters. -/
def sample120x : String := String.mk (List.replicate 120 'x')

set_option maxRecDepth 8192 in
/-- Witness for C9: on a concrete product document, the long description is
printed truncated to 50 characters plus "...", and the non-whitelisted field
of the document yields no line. -/
theorem products_rendering_witness :
    ("  " ++ "description" ++ ": " ++ (sample120x.take 50 ++ "...")) ∈
      productLines [("junk", Value.vInt 3), ("name", Value.vStr "w"),
        ("description", Value.vStr sample120x)] ∧
    productLines [("junk", Value.vInt 3), ("name", Value.vStr "w"),
        ("description", Value.vStr sample120x)] =
      ["  name: w",
       "  description: " ++ (sample120x.take 50 ++ "...")] := by
  have h := (products_rendering [("junk", Value.vInt 3), ("name", Value.vStr "w"),
    ("description", Value.vStr sample120x)] "description" sample120x).2.1
    (by decide) rfl (by decide)
  exact ⟨h, by rfl⟩

/-- C2: no raise of the database service escapes an exploration step: a
fetch that raises makes `explore_collection_structure` (and the products
step) return the empty result, and whatever the fetches do, the run still
reaches the collection enumeration and still overwrites the output file
when the enumeration succeeds; the top-level run always returns normally. -/
theorem exploration_soft_fail (env : Env) (s : RunState) (names : List String)
    (hconn : canConnect env s)
    (hcols : env.db.collectionIds = Except.ok names) :
    (∀ name lim e, env.db.getDocs name lim = Except.error e →
      (explore_collection_structure env name lim s).1 = []) ∧
    (∀ e, env.db.getDocs "products" 5 = Except.error e →
      (explore_products_structure env s).1 = []) ∧
    Call.listCollections ∈ (mainRun env s).calls ∧
    (mainRun env s).fileContent = some (jsonDump names) := by
  obtain ⟨hfile, hmem⟩ := mainRun_writes env s names hconn hcols
  refine ⟨?_, ?_, hmem, hfile⟩
  · intro name lim e herr
    unfold explore_collection_structure
    cases hinit : init_firestore env s with
    | mk r s1 =>
      cases r with
      | error e1 => simp
      | ok o =>
        cases o with
        | none => simp
        | some d => simp [callGetDocs, herr]
  · intro e herr
    unfold explore_products_structure
    cases hinit : init_firestore env s with
    | mk r s1 =>
      cases r with
      | error e1 => simp
      | ok o =>
        cases o with
        | none => simp
        | some d => simp [callGetDocs, herr]

/-- A service on which every document fetch raises, while the collection
enumeration succeeds. -/
def allRaiseDB : FirestoreDB :=
  { getDocs := fun _ _ => Except.error "deadline exceeded"
    collectionIds := Except.ok ["users", "products"] }

/-- Witness for C2: with every fetch raising (including "products" at limit
5), the products step yields nothing, yet the run still enumerates the
collections and writes the file. -/
theorem exploration_soft_fail_witness :
    (explore_products_structure ⟨true, none, allRaiseDB⟩ ⟨true, none, []⟩).1 = [] ∧
    Call.listCollections ∈
      (mainRun ⟨true, none, allRaiseDB⟩ ⟨true, none, []⟩).calls ∧
    (mainRun ⟨true, none, allRaiseDB⟩ ⟨true, none, []⟩).fileContent =
      some (jsonDump ["users", "products"]) := by
  have h := exploration_soft_fail ⟨true, none, allRaiseDB⟩ ⟨true, none, []⟩
    ["users", "products"] (Or.inl rfl) rfl
  exact ⟨h.2.1 "deadline exceeded" rfl, h.2.2.1, h.2.2.2⟩

/-- C5: when the credential file does not exist (and no app was initialised
yet), `init_firestore` reports the absence by returning no handle, every
exploration step returns its empty result without making any service call
(the state, including the call trace and the output file, is untouched),
and the whole run completes normally as the identity on the state. -/
theorem missing_credentials_soft (env : Env) (s : RunState)
    (hcred : env.credExists = false) (happ : s.appExists = false) :
    init_firestore env s = (Except.ok none, s) ∧
    (∀ name lim, explore_collection_structure env name lim s = ([], s)) ∧
    find_orders_by_criteria env s = (FindOrdersResult.noDb, s) ∧
    explore_products_structure env s = ([], s) ∧
    explore_users_structure env s = s ∧
    mainRun env s = s := by
  have hinit : init_firestore env s = (Except.ok none, s) := by
    simp [init_firestore, happ, hcred]
  have hu : explore_users_structure env s = s := by
    simp [explore_users_structure, hinit]
  have hf : find_orders_by_criteria env s = (FindOrdersResult.noDb, s) := by
    simp [find_orders_by_criteria, hinit]
  have hp : explore_products_structure env s = ([], s) := by
    simp [explore_products_structure, hinit]
  have hl : list_all_collections env s = s := by
    simp [list_all_collections, hinit]
  refine ⟨hinit, fun name lim => ?_, hf, hp, hu, ?_⟩
  · simp [explore_collection_structure, hinit]
  · simp [mainRun, hu, hf, hp, hl]

/-- Witness for C5: a concrete environment with no credential file leaves a
fresh state entirely unchanged and reports no database handle. -/
theorem missing_credentials_soft_witness :
    init_firestore ⟨false, none, allEmptyDB⟩ ⟨false, none, []⟩ =
      (Except.ok none, ⟨false, none, []⟩) ∧
    find_orders_by_criteria ⟨false, none, allEmptyDB⟩ ⟨false, none, []⟩ =
      (FindOrdersResult.noDb, ⟨false, none, []⟩) ∧
    mainRun ⟨false, none, allEmptyDB⟩ ⟨false, none, []⟩ = ⟨false, none, []⟩ := by
  have h := missing_credentials_soft ⟨false, none, allEmptyDB⟩ ⟨false, none, []⟩
    rfl rfl
  exact ⟨h.1, h.2.2.1, h.2.2.2.2.2⟩

/-- C6: `init_firestore` is idempotent within a process: once a call has
yielded a handle, the app exists, and any later call returns the very same
handle with the state unchanged — in particular it neither reads the
credential file again nor initialises a new app (no call is appended). -/
theorem init_firestore_idempotent (env : Env) (s s' : RunState)
    (db : FirestoreDB)
    (h : init_firestore env s = (Except.ok (some db), s')) :
    db = env.db ∧ s'.appExists = true ∧
    init_firestore env s' = (Except.ok (some db), s') := by
  cases happ : s.appExists with
  | true =>
    rw [init_app_true env s happ] at h
    simp only [Prod.mk.injEq, Except.ok.injEq, Option.some.injEq] at h
    obtain ⟨hdb, hs⟩ := h
    subst hs
    refine ⟨hdb.symm, happ, ?_⟩
    rw [init_app_true env s happ, hdb]
  | false =>
    cases hcredE : env.credExists with
    | false => simp [init_firestore, happ, hcredE] at h
    | true =>
      cases hauth : env.authError with
      | some e => simp [init_firestore, happ, hcredE, hauth] at h
      | none =>
        simp only [init_firestore, happ, hcredE, hauth, Bool.false_eq_true,
          if_false, Bool.not_true, Prod.mk.injEq, Except.ok.injEq,
          Option.some.injEq] at h
        obtain ⟨hdb, hs⟩ := h
        subst hs
        refine ⟨hdb.symm, rfl, ?_⟩
        rw [init_app_true env _ rfl, hdb]

/-- Witness for C6: after a first successful initialisation from a fresh
state (reading the credential file once), a second call returns the same
handle and leaves the state untouched. -/
theorem init_firestore_idempotent_witness :
    init_firestore ⟨true, none, allEmptyDB⟩ ⟨false, none, []⟩ =
      (Except.ok (some allEmptyDB), ⟨true, none, [Call.credRead]⟩) ∧
    init_firestore ⟨true, none, allEmptyDB⟩ ⟨true, none, [Call.credRead]⟩ =
      (Except.ok (some allEmptyDB), ⟨true, none, [Call.credRead]⟩) := by
  have h := init_firestore_idempotent ⟨true, none, allEmptyDB⟩ ⟨false, none, []⟩
    ⟨true, none, [Call.credRead]⟩ allEmptyDB rfl
  exact ⟨rfl, h.2.2⟩

/-- C7: a run that reaches a successful collection enumeration overwrites
`firestore_collections.json` with exactly the JSON dump of the names the
service returned, regardless of the file's prior content; a second run with
a different name set leaves only the most recent set in the file.  The last
conjunct exhibits the serialisation format: a JSON array of strings with
2-space indentation. -/
theorem registry_overwrite (env1 env2 : Env) (s : RunState)
    (names1 names2 : List String)
    (h1 : canConnect env1 s)
    (hc1 : env1.db.collectionIds = Except.ok names1)
    (hcred2 : env2.credExists = true) (hauth2 : env2.authError = none)
    (hc2 : env2.db.collectionIds = Except.ok names2) :
    (mainRun env1 s).fileContent = some (jsonDump names1) ∧
    (mainRun env2
      (RunState.mk false (mainRun env1 s).fileContent [])).fileContent =
      some (jsonDump names2) ∧
    jsonDump ["orders", "users"] = "[\n  \"orders\",\n  \"users\"\n]" := by
  refine ⟨(mainRun_writes env1 s names1 h1 hc1).1, ?_, rfl⟩
  exact (mainRun_writes env2 _ names2 (Or.inr ⟨hcred2, hauth2⟩) hc2).1

/-- A service whose collection enumeration returns ["users"]. -/
def namesOneDB : FirestoreDB :=
  { getDocs := fun _ _ => Except.ok []
    collectionIds := Except.ok ["users"] }

/-- A service whose collection enumeration returns ["orders", "products"]. -/
def namesTwoDB : FirestoreDB :=
  { getDocs := fun _ _ => Except.ok []
    collectionIds := Except.ok ["orders", "products"] }

/-- Witness for C7: two consecutive runs against services advertising
different collection sets leave the file holding exactly the JSON of the
second set. -/
theorem registry_overwrite_witness :
    (mainRun ⟨true, none, namesOneDB⟩ ⟨true, some "old content", []⟩).fileContent =
      some "[\n  \"users\"\n]" ∧
    (mainRun ⟨true, none, namesTwoDB⟩
      (RunState.mk false
        (mainRun ⟨true, none, namesOneDB⟩
          ⟨true, some "old content", []⟩).fileContent [])).fileContent =
      some "[\n  \"orders\",\n  \"products\"\n]" := by
  have h := registry_overwrite ⟨true, none, namesOneDB⟩ ⟨true, none, namesTwoDB⟩
    ⟨true, some "old content", []⟩ ["users"] ["orders", "products"]
    (Or.inl rfl) rfl rfl rfl rfl
  exact ⟨by rw [h.1]; rfl, by rw [h.2.1]; rfl⟩
